import Mathlib

/-!
Verification development for the `topdf` document-assembly module
(`src/topdf.py` of NERC-CEH/docs): file discovery and filtering,
two-level ordering, page normalization geometry, and the merge pipelines
`merge_pdf`, `merge_img` and `merge_img2`.

Pure logic (filters, sorts, list manipulation, control flow) is embedded
directly from the source.  External collaborators that are not part of the
repository (`funclite.iolib`, `funclite.baselib`, `opencvlite.transforms`,
`img2pdf`) are modelled from the spec where their behavior decides a claim;
each such definition carries a doc comment starting `Modelled from the
spec:`.
-/

namespace Topdf

/-! ## String helpers (executable substring matching, path basename) -/

/-- Does the pattern `t` occur at the head of `s`? (character-list level). -/
def beginsWith : List Char → List Char → Bool
  | [], _ => true
  | _ :: _, [] => false
  | a :: as, b :: bs => a = b && beginsWith as bs

/-- Does `t` occur as a contiguous substring of `s`? (character-list level). -/
def hasSubstr (t : List Char) : List Char → Bool
  | [] => t.isEmpty
  | c :: rest => beginsWith t (c :: rest) || hasSubstr t rest

/-- ASCII lower-casing of a single character (models Python `str.lower`
on the ASCII names this module handles). -/
def lowerChar (c : Char) : Char :=
  if c >= 'A' && c <= 'Z' then Char.ofNat (c.toNat + 32) else c

/-- Lower-case a string character-wise. -/
def lowerStr (s : String) : String := ⟨s.data.map lowerChar⟩

/-- Last path component after splitting on `/` (models `os.path.basename`). -/
def lastCompGo : List Char → List Char → List Char
  | [], acc => acc.reverse
  | c :: cs, acc => if c = '/' then lastCompGo cs [] else lastCompGo cs (c :: acc)

/-- `os.path.basename`, modelled over `/`-separated paths. -/
def lastComp (s : String) : String := ⟨lastCompGo s.data []⟩

/-- Modelled from the spec: `funclite.baselib.list_member_in_str` (not under
`src/`) — a name matches when at least one term of the list occurs as a
substring of it ("whose filename contains at least one include term"). -/
def list_member_in_str (s : String) (lst : List String) : Bool :=
  lst.any fun t => hasSubstr t.data s.data

/-! ## Stable sort by key

Python's `list.sort(key=...)`/`sorted(key=...)` is a stable ascending sort
by the supplied key.  We embed it as a stable insertion sort: each element
is inserted after all already-placed elements of less-or-equal key. -/

/-- Insert `a` into `l`, after every element whose key is `≤ key a`. -/
def insertKeyed {α κ : Type} [LinearOrder κ] (key : α → κ) (a : α) : List α → List α
  | [] => [a]
  | b :: bs => if key b ≤ key a then b :: insertKeyed key a bs else a :: b :: bs

/-- Stable ascending sort by key (embeds Python's `sort(key=...)`). -/
def sortKeyed {α κ : Type} [LinearOrder κ] (key : α → κ) (l : List α) : List α :=
  l.foldl (fun acc a => insertKeyed key a acc) []

theorem length_insertKeyed {α κ : Type} [LinearOrder κ] (key : α → κ) (a : α)
    (l : List α) : (insertKeyed key a l).length = l.length + 1 := by
  induction l with
  | nil => rfl
  | cons b bs ih =>
    by_cases h : key b ≤ key a <;> simp [insertKeyed, h, ih]

theorem length_sortKeyed_foldl {α κ : Type} [LinearOrder κ] (key : α → κ)
    (l acc : List α) :
    (l.foldl (fun acc a => insertKeyed key a acc) acc).length
      = acc.length + l.length := by
  induction l generalizing acc with
  | nil => simp
  | cons b bs ih =>
    simp only [List.foldl_cons]
    rw [ih, length_insertKeyed]
    simp only [List.length_cons]
    omega

theorem length_sortKeyed {α κ : Type} [LinearOrder κ] (key : α → κ) (l : List α) :
    (sortKeyed key l).length = l.length := by
  simpa [sortKeyed] using length_sortKeyed_foldl key l []

theorem mem_insertKeyed {α κ : Type} [LinearOrder κ] (key : α → κ) (a x : α)
    (l : List α) : x ∈ insertKeyed key a l ↔ x = a ∨ x ∈ l := by
  induction l with
  | nil => simp [insertKeyed]
  | cons b bs ih =>
    by_cases h : key b ≤ key a
    · simp only [insertKeyed, if_pos h, List.mem_cons, ih]
      tauto
    · simp only [insertKeyed, if_neg h, List.mem_cons]

theorem mem_sortKeyed_foldl {α κ : Type} [LinearOrder κ] (key : α → κ)
    (l acc : List α) (x : α) :
    x ∈ l.foldl (fun acc a => insertKeyed key a acc) acc ↔ x ∈ acc ∨ x ∈ l := by
  induction l generalizing acc with
  | nil => simp
  | cons b bs ih =>
    simp only [List.foldl_cons, ih, mem_insertKeyed, List.mem_cons]
    tauto

theorem mem_sortKeyed {α κ : Type} [LinearOrder κ] (key : α → κ) (l : List α)
    (x : α) : x ∈ sortKeyed key l ↔ x ∈ l := by
  simp [sortKeyed, mem_sortKeyed_foldl]

theorem sortKeyed_ne_nil {α κ : Type} [LinearOrder κ] (key : α → κ)
    (l : List α) (h : l ≠ []) : (sortKeyed key l).isEmpty = false := by
  rw [List.isEmpty_eq_false_iff_exists_mem]
  obtain ⟨a, ha⟩ := List.exists_mem_of_ne_nil l h
  exact ⟨a, (mem_sortKeyed key l a).mpr ha⟩

/-- A fold that overwrites an accumulator with a constant on every step
returns that constant once the list is nonempty (models Python loops of the
shape `for _ in lst: found = e` where `e` does not depend on the loop
variable). -/
theorem foldl_overwrite {α β : Type} (c : β) (l : List α) (b : β) (h : l ≠ []) :
    l.foldl (fun _ _ => c) b = c := by
  cases l with
  | nil => exact absurd rfl h
  | cons x xs =>
    simp only [List.foldl_cons]
    induction xs generalizing b with
    | nil => rfl
    | cons y ys ih => exact ih b (by simp)

/-! ## Page-normalizer geometry (`_rotate_img`, the resize calls, `a4`)

An image is modelled by its resolution; dimensions are exact rationals so
that the spec's aspect-preserving scaling ("scale factor capped at 1.0 on
both axes, aspect ratio preserved") is stated without rounding noise. -/

/-- An image, reduced to the data the geometry claims are about: its
width and height in pixels. -/
structure Img where
  w : ℚ
  h : ℚ
deriving DecidableEq, Repr

/-- `opencvlite.info.ImageInfo.resolution`: the `(width, height)` pair
read off the image (source: `w, h = _cInfo.resolution(im)` in
`_rotate_img`). -/
def resolution (im : Img) : ℚ × ℚ := (im.w, im.h)

/-- Modelled from the spec: `opencvlite.transforms.rotate` (not under
`src/`) — a rotation by ±90° swaps the image's width and height; other
angles are not used by this module. -/
def rotate (im : Img) (deg : Int) : Img :=
  if deg = -90 ∨ deg = 90 then { w := im.h, h := im.w } else im

/-- Embeds `_rotate_img` (src/topdf.py lines 35–46): read the resolution
and rotate by −90° exactly when width exceeds height (the `np.copy` is
identity on the geometry). -/
def rotate_img (im : Img) : Img :=
  let w := (resolution im).1
  let h := (resolution im).2
  if w > h then rotate im (-90) else im

/-- Scale both dimensions of an image by a common factor. -/
def scaleBy (im : Img) (f : ℚ) : Img := { w := im.w * f, h := im.h * f }

/-- Modelled from the spec: `opencvlite.transforms.resize` with a `height`
target and `do_not_grow=True` (not under `src/`) — aspect-preserving
scaling by `min 1 (target / current height)`. -/
def resize_height (im : Img) (height : ℚ) : Img :=
  scaleBy im (min 1 (height / im.h))

/-- Modelled from the spec: `opencvlite.transforms.resize` with a `width`
target and `do_not_grow=True` (not under `src/`). -/
def resize_width (im : Img) (width : ℚ) : Img :=
  scaleBy im (min 1 (width / im.w))

/-- The `a4.dpi72` target `(x, y) = (595, 842)` (src/topdf.py line 25). -/
def a4_dpi72 : ℚ × ℚ := (595, 842)

/-- Embeds the page-normalization of the merge loops (src/topdf.py lines
180–184 and 310–314): rotate to portrait, resize to the target height
without growing, then resize to the target width without growing. -/
def normalize_page (im : Img) : Img :=
  resize_width (resize_height (rotate_img im) a4_dpi72.2) a4_dpi72.1

theorem scaleBy_w_le (im : Img) (f : ℚ) (hw : 0 ≤ im.w) (hf : f ≤ 1) :
    (scaleBy im f).w ≤ im.w := by
  have := mul_le_mul_of_nonneg_left hf hw
  simpa [scaleBy] using this

theorem scaleBy_h_le (im : Img) (f : ℚ) (hh : 0 ≤ im.h) (hf : f ≤ 1) :
    (scaleBy im f).h ≤ im.h := by
  have := mul_le_mul_of_nonneg_left hf hh
  simpa [scaleBy] using this

theorem min_one_div_nonneg (t d : ℚ) (ht : 0 ≤ t) (hd : 0 ≤ d) :
    0 ≤ min 1 (t / d) :=
  le_min zero_le_one (div_nonneg ht hd)

/-- `d * min 1 (t / d) ≤ t` for nonnegative `d` and `t`: a capped
aspect-preserving resize lands within the target. -/
theorem mul_min_one_div_le (d t : ℚ) (hd : 0 ≤ d) (ht : 0 ≤ t) :
    d * min 1 (t / d) ≤ t := by
  rcases eq_or_lt_of_le hd with h0 | hpos
  · simp [← h0, ht]
  · calc d * min 1 (t / d) ≤ d * (t / d) :=
          mul_le_mul_of_nonneg_left (min_le_right _ _) hd
      _ = t := by field_simp

theorem resize_height_h_le_target (im : Img) (t : ℚ) (hh : 0 ≤ im.h)
    (ht : 0 ≤ t) : (resize_height im t).h ≤ t := by
  simpa [resize_height, scaleBy] using mul_min_one_div_le im.h t hh ht

theorem resize_width_w_le_target (im : Img) (t : ℚ) (hw : 0 ≤ im.w)
    (ht : 0 ≤ t) : (resize_width im t).w ≤ t := by
  simpa [resize_width, scaleBy] using mul_min_one_div_le im.w t hw ht

theorem resize_height_shrinks (im : Img) (t : ℚ) (hw : 0 ≤ im.w)
    (hh : 0 ≤ im.h) :
    (resize_height im t).w ≤ im.w ∧ (resize_height im t).h ≤ im.h :=
  ⟨scaleBy_w_le im _ hw (min_le_left _ _), scaleBy_h_le im _ hh (min_le_left _ _)⟩

theorem resize_width_shrinks (im : Img) (t : ℚ) (hw : 0 ≤ im.w)
    (hh : 0 ≤ im.h) :
    (resize_width im t).w ≤ im.w ∧ (resize_width im t).h ≤ im.h :=
  ⟨scaleBy_w_le im _ hw (min_le_left _ _), scaleBy_h_le im _ hh (min_le_left _ _)⟩

theorem resize_height_nonneg (im : Img) (t : ℚ) (hw : 0 ≤ im.w)
    (hh : 0 ≤ im.h) (ht : 0 ≤ t) :
    0 ≤ (resize_height im t).w ∧ 0 ≤ (resize_height im t).h :=
  ⟨mul_nonneg hw (min_one_div_nonneg t im.h ht hh),
   mul_nonneg hh (min_one_div_nonneg t im.h ht hh)⟩

theorem rotate_img_cases (im : Img) :
    rotate_img im = if im.w > im.h then { w := im.h, h := im.w } else im := by
  by_cases h : im.w > im.h <;> simp [rotate_img, resolution, rotate, h]

/-- C6: for every source image with nonnegative dimensions, the normalized
page fits within the 595×842 target on both axes, is never enlarged beyond
the (orientation-corrected) native resolution or beyond the larger native
axis, and the rescaling is exactly resize-to-height-no-grow followed by
resize-to-width-no-grow. -/
theorem normalize_page_fits (im : Img) (hw : 0 ≤ im.w) (hh : 0 ≤ im.h) :
    (normalize_page im).w ≤ 595 ∧ (normalize_page im).h ≤ 842
      ∧ (normalize_page im).w ≤ (rotate_img im).w
      ∧ (normalize_page im).h ≤ (rotate_img im).h
      ∧ (normalize_page im).w ≤ max im.w im.h
      ∧ (normalize_page im).h ≤ max im.w im.h
      ∧ normalize_page im
          = resize_width (resize_height (rotate_img im) 842) 595 := by
  have h0 : 0 ≤ (rotate_img im).w ∧ 0 ≤ (rotate_img im).h
      ∧ (rotate_img im).w ≤ max im.w im.h
      ∧ (rotate_img im).h ≤ max im.w im.h := by
    rw [rotate_img_cases im]
    by_cases h : im.w > im.h
    · simp only [if_pos h]
      exact ⟨hh, hw, le_max_right _ _, le_max_left _ _⟩
    · simp only [if_neg h]
      exact ⟨hw, hh, le_max_left _ _, le_max_right _ _⟩
  obtain ⟨h0w, h0h, h0wm, h0hm⟩ := h0
  have h1t : (resize_height (rotate_img im) 842).h ≤ 842 :=
    resize_height_h_le_target _ _ h0h (by norm_num)
  have h1s := resize_height_shrinks (rotate_img im) 842 h0w h0h
  have h1n := resize_height_nonneg (rotate_img im) 842 h0w h0h (by norm_num)
  have h2t : (resize_width (resize_height (rotate_img im) 842) 595).w ≤ 595 :=
    resize_width_w_le_target _ _ h1n.1 (by norm_num)
  have h2s := resize_width_shrinks (resize_height (rotate_img im) 842) 595
    h1n.1 h1n.2
  have key : normalize_page im
      = resize_width (resize_height (rotate_img im) 842) 595 := rfl
  rw [key]
  refine ⟨h2t, le_trans h2s.2 h1t, le_trans h2s.1 h1s.1,
    le_trans h2s.2 h1s.2, le_trans (le_trans h2s.1 h1s.1) h0wm,
    le_trans (le_trans h2s.2 h1s.2) h0hm, rfl⟩

/-- Witness for C6 at the concrete 1000×2000 image. -/
theorem normalize_page_fits_witness :
    (normalize_page ⟨1000, 2000⟩).w ≤ 595
      ∧ (normalize_page ⟨1000, 2000⟩).h ≤ 842
      ∧ (normalize_page ⟨1000, 2000⟩).w ≤ (rotate_img ⟨1000, 2000⟩).w
      ∧ (normalize_page ⟨1000, 2000⟩).h ≤ (rotate_img ⟨1000, 2000⟩).h
      ∧ (normalize_page ⟨1000, 2000⟩).w ≤ max (1000 : ℚ) 2000
      ∧ (normalize_page ⟨1000, 2000⟩).h ≤ max (1000 : ℚ) 2000
      ∧ normalize_page ⟨1000, 2000⟩
          = resize_width (resize_height (rotate_img ⟨1000, 2000⟩) 842) 595 :=
  normalize_page_fits ⟨1000, 2000⟩ (by norm_num) (by norm_num)

/-- C7: the normalizer's orientation step leaves every image with
width ≤ height; an image whose width exceeds its height is rotated by
−90°, and an image with width ≤ height is returned unchanged. -/
theorem rotate_img_portrait (im : Img) :
    (rotate_img im).w ≤ (rotate_img im).h
      ∧ (im.h < im.w → rotate_img im = rotate im (-90))
      ∧ (im.w ≤ im.h → rotate_img im = im) := by
  rw [rotate_img_cases im]
  by_cases h : im.w > im.h
  · refine ⟨?_, ?_, ?_⟩
    · simp only [if_pos h]
      exact le_of_lt h
    · intro _
      simp [h, rotate]
    · intro hle
      exact absurd h (not_lt.mpr hle)
  · refine ⟨?_, ?_, ?_⟩
    · simp only [if_neg h]
      exact not_lt.mp h
    · intro hlt
      exact absurd hlt h
    · intro _
      simp [h]

/-- Witness for C7 at the concrete landscape 300×200 image. -/
theorem rotate_img_portrait_witness :
    (rotate_img ⟨300, 200⟩).w ≤ (rotate_img ⟨300, 200⟩).h
      ∧ rotate_img ⟨300, 200⟩ = rotate ⟨300, 200⟩ (-90) :=
  ⟨(rotate_img_portrait ⟨300, 200⟩).1,
   (rotate_img_portrait ⟨300, 200⟩).2.1 (by norm_num)⟩

/-! ## The `merge_pdf` name filter (src/topdf.py lines 79–97) -/

/-- Embeds the body of `merge_pdf`'s discovery loop for one file name `f`:
`found` starts `False`; when `exclude` is nonempty, each pass of
`for _ in exclude` overwrites `found` with `list_member_in_str(f, exclude)`
(the inner `if found: continue` only continues that inner loop); a file
with `found` set is skipped.  Then `found = True`; when `find` is
nonempty, each pass of `for _ in find` overwrites `found` with
`list_member_in_str(f, find)`; the file is kept iff `found` ends `True`. -/
def keep_pdf (f : String) (find exclude : List String) : Bool :=
  let found :=
    if exclude.isEmpty then false
    else exclude.foldl (fun _ _ => list_member_in_str f exclude) false
  if found then false
  else if find.isEmpty then true
  else find.foldl (fun _ _ => list_member_in_str f find) false

/-! ## Filesystem model and discovery for `merge_img2`

`funclite.iolib`'s walkers are not part of this repository, so discovery
is modelled from the spec: grouping is by immediate child directory of the
root, each group discovered independently. -/

/-- A discovered candidate: its containing directory group and its file
name (standing for the fully qualified path `dir ++ "/" ++ name`). -/
structure FileEntry where
  dir : String
  name : String
deriving DecidableEq, Repr

/-- The fully qualified path of a candidate. -/
def pathOf (e : FileEntry) : String := e.dir ++ "/" ++ e.name

/-- The filesystem state a run sees: the root directory, the image files
directly in the root, the immediate child directories with the image files
beneath each, and the raster contents of every path (irrelevant to
ordering). -/
structure FS where
  root : String
  rootFiles : List String
  groups : List (String × List String)
  contents : String → Img

/-- Modelled from the spec: `funclite.iolib.folder_generator2` (not under
`src/`) — yields the walked root directory itself followed by its
immediate child directories, in discovery order. -/
def folder_generator2 (fs : FS) : List String :=
  fs.root :: fs.groups.map Prod.fst

/-- Modelled from the spec: the include/exclude name filter applied inside
`funclite.iolib.file_list_generator2` (not under `src/`) — a name survives
iff it contains none of the exclude terms and, when include terms are
given, contains at least one of them; exclude takes precedence. -/
def keep2 (name : String) (find exclude : List String) : Bool :=
  !list_member_in_str name exclude
    && (find.isEmpty || list_member_in_str name find)

/-- The candidates of one directory group, tagged with their group. -/
def groupFilesRaw (fs : FS) (fld : String) : List FileEntry :=
  (fs.groups.filter fun g => g.1 == fld).flatMap
    fun g => g.2.map fun n => ⟨g.1, n⟩

/-- Modelled from the spec: `funclite.iolib.file_list_generator2` (not
under `src/`) — the image files under a directory in discovery order
(recursively when `recurse`), filtered by the include/exclude terms. -/
def file_list_generator2 (fs : FS) (fld : String) (find exclude : List String)
    (recurse : Bool) : List FileEntry :=
  let base :=
    if fld = fs.root then
      if recurse then
        fs.rootFiles.map (fun n => ⟨fs.root, n⟩)
          ++ fs.groups.flatMap fun g => g.2.map fun n => (⟨g.1, n⟩ : FileEntry)
      else fs.rootFiles.map fun n => ⟨fs.root, n⟩
    else groupFilesRaw fs fld
  base.filter fun e => keep2 e.name find exclude

/-- Embeds the file-ordering code of `merge_img2` (src/topdf.py lines
282–296): when recursing, list the folders, delete the root from that list
(`del folders[folders.index(rootdir)]`), sort the folders by
`dir_sort_func`, and for each folder append its (nonempty, sorted by
`file_sort_func`) candidate list to `files`; otherwise sort the root's own
candidate list by `file_sort_func`. -/
def merge_img2_files {κ₁ κ₂ : Type} [LinearOrder κ₁] [LinearOrder κ₂]
    (fs : FS) (find exclude : List String) (fk : FileEntry → κ₁)
    (dk : String → κ₂) (recurse : Bool) : List FileEntry :=
  if recurse then
    let folders := (folder_generator2 fs).erase fs.root
    (sortKeyed dk folders).foldl
      (fun files fld =>
        let lst := file_list_generator2 fs fld find exclude true
        if lst.isEmpty then files else files ++ sortKeyed fk lst)
      []
  else
    sortKeyed fk (file_list_generator2 fs fs.root find exclude false)

/-- Definition following the spec's words (the refinement target for C3):
the final file order is the concatenation of the per-directory-group
orderings, the groups themselves ordered by the directory-level key and
each group's files ordered by the file-level key. -/
def spec_recursive_order {κ₁ κ₂ : Type} [LinearOrder κ₁] [LinearOrder κ₂]
    (fs : FS) (find exclude : List String) (fk : FileEntry → κ₁)
    (dk : String → κ₂) : List FileEntry :=
  ((sortKeyed dk ((folder_generator2 fs).erase fs.root)).map
      fun fld => sortKeyed fk (file_list_generator2 fs fld find exclude true)).flatten

/-! ## Run model for the three mergers

Results and observable filesystem actions.  Temporary page names are
produced by `funclite.iolib.get_temp_fname` (not under `src/`); they are
modelled from the spec as fresh unique names in the staging area, here a
deterministic counter. -/

/-- Observable filesystem actions of one run, in order. -/
inductive Ev where
  | createStaging
  | writePage (name : String)
  | existsFail
  | writePdf
  | cleanup
deriving DecidableEq, Repr

/-- The value a merge routine terminates with. -/
inductive MergeResult where
  | noImages
  | errorExists (pdfName : String)
  | ok (pdfName : String) (tmpFld : String) (files : List String)
deriving DecidableEq, Repr

/-- A whole run: final value, action trace, and the page-file sequence
passed to `img2pdf.convert` (none when the conversion is never reached). -/
structure ImgRun where
  result : MergeResult
  events : List Ev
  convertInput : Option (List String)
deriving DecidableEq, Repr

/-- Modelled from the spec: the fresh unique staging-area name of the
`i`-th normalized page (`get_temp_fname(suffix='.png')` under the
temporary folder). -/
def stagedName (i : Nat) : String := "tmp/pg" ++ toString i ++ ".png"

/-- The staged names produced for a list of written pages, starting at
counter `k`. -/
def stagedFrom (k : Nat) : List String → List String
  | [] => []
  | _ :: rest => stagedName k :: stagedFrom (k + 1) rest

/-- Embeds `merge_img`'s per-file find check (src/topdf.py lines 188–191):
with a nonempty `find`, a file whose (lower-cased) name does not contain
the (lower-cased) term is skipped before its page is written. -/
def passes_find (findTerm fname : String) : Bool :=
  findTerm.isEmpty || hasSubstr (lowerStr findTerm).data (lowerStr fname).data

/-- Embeds the output-name resolution shared by `merge_img` and
`merge_img2` (src/topdf.py lines 210–217 and 334–341). -/
def resolve_pdf_name (rootdir saveTo pdfArg : String) : String :=
  if pdfArg = "" then
    if saveTo = "" then rootdir ++ "/" ++ lastComp rootdir ++ ".pdf"
    else saveTo ++ "/" ++ lastComp rootdir ++ ".pdf"
  else pdfArg

/-- Embeds `merge_img`'s normalization loop (src/topdf.py lines 176–208):
iterate over the discovered list, and for every file passing the find
check append the freshly staged page name **to that same list** (the
`files.append(fname)` of line 207), threading the fresh-name counter. -/
def merge_img_loop (findTerm : String) (files : List String) :
    List String × Nat :=
  files.foldl
    (fun acc f =>
      if passes_find findTerm f then (acc.1 ++ [stagedName acc.2], acc.2 + 1)
      else acc)
    (files, 0)

/-- Embeds `merge_img` (src/topdf.py lines 134–232): sort the discovered
files, return the `(None, None, None)` sentinel when there are none,
otherwise create the staging folder, run the normalization loop, resolve
the output name, raise `FileExistsError` when it exists without
`overwrite`, else convert the accumulated list and clean up. -/
def merge_img_embed {κ : Type} [LinearOrder κ] (files0 : List String)
    (findTerm rootdir saveTo pdfArg : String) (overwrite keepTmp : Bool)
    (exists_ : String → Bool) (key : String → κ) : ImgRun :=
  let files := sortKeyed key files0
  if files.isEmpty then
    { result := .noImages, events := [], convertInput := none }
  else
    let filesAll := (merge_img_loop findTerm files).1
    let staged := filesAll.drop files.length
    let pdfName := resolve_pdf_name rootdir saveTo pdfArg
    let evs := Ev.createStaging :: staged.map Ev.writePage
    if !overwrite && exists_ pdfName then
      { result := .errorExists pdfName, events := evs ++ [Ev.existsFail],
        convertInput := none }
    else
      { result := .ok pdfName "tmp" filesAll,
        events := evs ++ [Ev.writePdf]
          ++ (if keepTmp then [] else [Ev.cleanup]),
        convertInput := some filesAll }

/-- Embeds `merge_img2` (src/topdf.py lines 235–356): compute the ordered
candidate list, return the sentinel when it is empty, otherwise create the
staging folder, write one staged page per candidate into `image_files`
(the separate list of line 308/331), resolve the output name, raise
`FileExistsError` when it exists without `overwrite`, else convert
`image_files` and clean up; the third element of the result is the
candidate path list. -/
def merge_img2_embed {κ₁ κ₂ : Type} [LinearOrder κ₁] [LinearOrder κ₂]
    (fs : FS) (find exclude : List String) (fk : FileEntry → κ₁)
    (dk : String → κ₂) (recurse : Bool) (saveTo pdfArg : String)
    (overwrite keepTmp : Bool) (exists_ : String → Bool) : ImgRun :=
  let files := merge_img2_files fs find exclude fk dk recurse
  if files.isEmpty then
    { result := .noImages, events := [], convertInput := none }
  else
    let image_files := stagedFrom 0 (files.map pathOf)
    let pdfName := resolve_pdf_name fs.root saveTo pdfArg
    let evs := Ev.createStaging :: image_files.map Ev.writePage
    if !overwrite && exists_ pdfName then
      { result := .errorExists pdfName, events := evs ++ [Ev.existsFail],
        convertInput := none }
    else
      { result := .ok pdfName "tmp" (files.map pathOf),
        events := evs ++ [Ev.writePdf]
          ++ (if keepTmp then [] else [Ev.cleanup]),
        convertInput := some image_files }

/-- One discovered entry of `merge_pdf`: the name matched by the filters
and the fully qualified path appended to the merge list. -/
structure PdfEntry where
  fname : String
  fpath : String
deriving DecidableEq, Repr

/-- A `merge_pdf` run: the returned output path, the merged page sources
in order, and the action trace. -/
structure PdfRun where
  outFile : String
  pages : List String
  events : List Ev
deriving DecidableEq, Repr

/-- Embeds `merge_pdf` (src/topdf.py lines 54–109): filter the discovered
names with the `found` logic, sort the surviving paths by `sort_func`,
resolve the output name from the root directory when `out_file` is empty,
and unconditionally write the merged document — there is no zero-candidate
check. -/
def merge_pdf_embed {κ : Type} [LinearOrder κ] (entries : List PdfEntry)
    (find exclude : List String) (key : String → κ)
    (rootdir outFileArg : String) : PdfRun :=
  let pdfs := (entries.filter fun e => keep_pdf e.fname find exclude).map
    PdfEntry.fpath
  let pdfs := sortKeyed key pdfs
  let outFile :=
    if outFileArg = "" then rootdir ++ "/" ++ lastComp rootdir ++ ".pdf"
    else outFileArg
  { outFile := outFile, pages := pdfs, events := [Ev.writePdf] }

/-! ## Helper lemmas about the embedded loops -/

/-- The `files += lst`-accumulating fold of `merge_img2` equals the
flattening of the per-folder sorted lists. -/
theorem foldl_groups {κ₁ : Type} [LinearOrder κ₁] (g : String → List FileEntry)
    (fk : FileEntry → κ₁) (l : List String) (init : List FileEntry) :
    l.foldl
        (fun files fld =>
          if (g fld).isEmpty then files else files ++ sortKeyed fk (g fld))
        init
      = init ++ (l.map fun fld => sortKeyed fk (g fld)).flatten := by
  induction l generalizing init with
  | nil => simp
  | cons fld rest ih =>
    simp only [List.foldl_cons, List.map_cons, List.flatten_cons]
    by_cases h : (g fld).isEmpty
    · have hnil : g fld = [] := List.isEmpty_iff.mp h
      rw [if_pos h, ih, hnil]
      simp [sortKeyed]
    · rw [if_neg h, ih, List.append_assoc]

/-- The recursive branch of `merge_img2`'s ordering, in closed form. -/
theorem merge_img2_files_recurse_eq {κ₁ κ₂ : Type} [LinearOrder κ₁]
    [LinearOrder κ₂] (fs : FS) (find exclude : List String)
    (fk : FileEntry → κ₁) (dk : String → κ₂) :
    merge_img2_files fs find exclude fk dk true
      = ((sortKeyed dk ((folder_generator2 fs).erase fs.root)).map
          fun fld => sortKeyed fk (file_list_generator2 fs fld find exclude true)).flatten := by
  have h := foldl_groups (fun fld => file_list_generator2 fs fld find exclude true)
    fk (sortKeyed dk ((folder_generator2 fs).erase fs.root)) []
  simpa [merge_img2_files] using h

/-- Closed form of `merge_img`'s normalization loop: the result list is
the input followed by the staged names of the files passing the find
check, and the counter advances by their number. -/
theorem merge_img_loop_foldl (findTerm : String) (files init : List String)
    (k : Nat) :
    files.foldl
        (fun acc f =>
          if passes_find findTerm f then (acc.1 ++ [stagedName acc.2], acc.2 + 1)
          else acc)
        (init, k)
      = (init ++ stagedFrom k (files.filter (passes_find findTerm)),
         k + (files.filter (passes_find findTerm)).length) := by
  induction files generalizing init k with
  | nil => simp [stagedFrom]
  | cons f rest ih =>
    simp only [List.foldl_cons, List.filter_cons]
    cases h : passes_find findTerm f
    · simp only [h, Bool.false_eq_true, if_false]
      exact ih init k
    · simp only [h, if_true]
      rw [ih]
      simp only [stagedFrom, List.length_cons]
      rw [Prod.mk.injEq]
      constructor
      · simp [List.append_assoc]
      · omega

/-! ## The claims -/

/-- C3: for every `recurse=True` run of `merge_img2`, the final ordered
file list equals the concatenation of the per-directory-group file lists,
the groups sorted by `dir_sort_func` and each group's files sorted by
`file_sort_func`, with no merging of files across groups before
sorting. -/
theorem merge_img2_recurse_is_group_concat {κ₁ κ₂ : Type} [LinearOrder κ₁]
    [LinearOrder κ₂] (fs : FS) (find exclude : List String)
    (fk : FileEntry → κ₁) (dk : String → κ₂) :
    merge_img2_files fs find exclude fk dk true
      = spec_recursive_order fs find exclude fk dk := by
  rw [merge_img2_files_recurse_eq]
  rfl

/-- Concrete filesystem used by the C10 witness. -/
def fsRootCase : FS :=
  { root := "r", rootFiles := ["rootfile.png"],
    groups := [("r/s1", ["b.png", "a.png"]), ("r/s2", ["c.png"])],
    contents := fun _ => ⟨2, 2⟩ }

/-- C10: in every `recurse=True` run of `merge_img2`, files located
directly in the root directory never appear in the candidate set — the
root is removed from the folder list before per-group discovery, so every
surviving candidate lies under a subdirectory (stated as: filtering the
result for entries whose group is the root yields nothing; the hypothesis
says no subdirectory path collides with the root path). -/
theorem merge_img2_recurse_excludes_root {κ₁ κ₂ : Type} [LinearOrder κ₁]
    [LinearOrder κ₂] (fs : FS) (find exclude : List String)
    (fk : FileEntry → κ₁) (dk : String → κ₂)
    (hroot : fs.root ∉ fs.groups.map Prod.fst) :
    (merge_img2_files fs find exclude fk dk true).filter
        (fun e => e.dir == fs.root) = [] := by
  rw [List.filter_eq_nil_iff]
  intro e he
  rw [merge_img2_files_recurse_eq] at he
  simp only [List.mem_flatten, List.mem_map] at he
  obtain ⟨L, ⟨fld, hfld, rfl⟩, heL⟩ := he
  rw [mem_sortKeyed] at heL hfld
  have hfolders : (folder_generator2 fs).erase fs.root = fs.groups.map Prod.fst := by
    simp [folder_generator2, List.erase_cons_head]
  rw [hfolders] at hfld
  have hne : fld ≠ fs.root := fun hcontra => hroot (hcontra ▸ hfld)
  simp only [file_list_generator2, if_neg hne, List.mem_filter] at heL
  obtain ⟨hmem, -⟩ := heL
  simp only [groupFilesRaw, List.mem_flatMap, List.mem_filter,
    List.mem_map] at hmem
  obtain ⟨g, ⟨-, hgf⟩, n, -, rfl⟩ := hmem
  have : g.1 = fld := by simpa using hgf
  simp only [beq_iff_eq]
  simp only [this]
  exact fun hc => hne (by simpa using hc)

/-- Witness for C10 on a concrete filesystem with a file directly in the
root. -/
theorem merge_img2_recurse_excludes_root_witness :
    (merge_img2_files fsRootCase [] [] (fun e => e.name.length)
        String.length true).filter (fun e => e.dir == fsRootCase.root) = [] :=
  merge_img2_recurse_excludes_root fsRootCase [] []
    (fun e => e.name.length) String.length (by decide)

/-- C8: the candidate ordering of `merge_img2` is a deterministic function
of the discovery data (root, root files, directory groups), the filter
terms and the sort keys alone: two filesystem states agreeing on discovery
— even with different raster contents — yield the same page ordering, so
re-running against an unchanged filesystem reproduces it exactly. -/
theorem merge_img2_order_deterministic {κ₁ κ₂ : Type} [LinearOrder κ₁]
    [LinearOrder κ₂] (fs₁ fs₂ : FS) (h1 : fs₁.root = fs₂.root)
    (h2 : fs₁.rootFiles = fs₂.rootFiles) (h3 : fs₁.groups = fs₂.groups)
    (find exclude : List String) (fk : FileEntry → κ₁) (dk : String → κ₂)
    (recurse : Bool) :
    merge_img2_files fs₁ find exclude fk dk recurse
      = merge_img2_files fs₂ find exclude fk dk recurse := by
  cases fs₁ with
  | mk r1 rf1 g1 c1 =>
    cases fs₂ with
    | mk r2 rf2 g2 c2 =>
      simp only at h1 h2 h3
      subst h1
      subst h2
      subst h3
      rfl

/-- First filesystem for the C8 witness. -/
def fsDetA : FS :=
  { root := "r", rootFiles := ["x.png"],
    groups := [("r/s1", ["p2.png", "p1.png"]), ("r/s2", ["q.png"])],
    contents := fun _ => ⟨3, 4⟩ }

/-- Same discovery data as `fsDetA`, different raster contents. -/
def fsDetB : FS :=
  { root := "r", rootFiles := ["x.png"],
    groups := [("r/s1", ["p2.png", "p1.png"]), ("r/s2", ["q.png"])],
    contents := fun _ => ⟨7, 9⟩ }

/-- Witness for C8: two concrete states with identical discovery data and
different contents produce the identical candidate ordering. -/
theorem merge_img2_order_deterministic_witness :
    merge_img2_files fsDetA [] [] (fun e => e.name.length) String.length true
      = merge_img2_files fsDetB [] [] (fun e => e.name.length)
          String.length true :=
  merge_img2_order_deterministic fsDetA fsDetB rfl rfl rfl [] []
    (fun e => e.name.length) String.length true

/-- C9: whenever `merge_img` finds images and reaches the conversion, the
staged page names have been appended to the very list holding the sorted
source paths: the third element of the returned tuple is the sources
followed by the staged `.png` names, and exactly that combined list is
what is handed to `img2pdf.convert`. -/
theorem merge_img_combined_convert_list {κ : Type} [LinearOrder κ]
    (files0 : List String) (findTerm rootdir saveTo pdfArg : String)
    (overwrite keepTmp : Bool) (exists_ : String → Bool) (key : String → κ)
    (h1 : files0 ≠ [])
    (h2 : (!overwrite && exists_ (resolve_pdf_name rootdir saveTo pdfArg))
        = false) :
    (merge_img_embed files0 findTerm rootdir saveTo pdfArg overwrite keepTmp
        exists_ key).result
      = .ok (resolve_pdf_name rootdir saveTo pdfArg) "tmp"
          (sortKeyed key files0
            ++ stagedFrom 0 ((sortKeyed key files0).filter (passes_find findTerm)))
      ∧ (merge_img_embed files0 findTerm rootdir saveTo pdfArg overwrite
          keepTmp exists_ key).convertInput
        = some (sortKeyed key files0
            ++ stagedFrom 0 ((sortKeyed key files0).filter (passes_find findTerm))) := by
  have hne := sortKeyed_ne_nil key files0 h1
  have hloop : merge_img_loop findTerm (sortKeyed key files0)
      = (sortKeyed key files0
          ++ stagedFrom 0 ((sortKeyed key files0).filter (passes_find findTerm)),
         0 + ((sortKeyed key files0).filter (passes_find findTerm)).length) :=
    merge_img_loop_foldl findTerm (sortKeyed key files0) (sortKeyed key files0) 0
  simp [merge_img_embed, hne, h2, hloop]

/-- Witness for C9 on a concrete one-file run. -/
theorem merge_img_combined_convert_list_witness :
    (merge_img_embed ["a.png"] "" "d" "" "" true false (fun _ => false)
        String.length).result
      = .ok (resolve_pdf_name "d" "" "") "tmp"
          (sortKeyed String.length ["a.png"]
            ++ stagedFrom 0
                ((sortKeyed String.length ["a.png"]).filter (passes_find "")))
      ∧ (merge_img_embed ["a.png"] "" "d" "" "" true false (fun _ => false)
          String.length).convertInput
        = some (sortKeyed String.length ["a.png"]
            ++ stagedFrom 0
                ((sortKeyed String.length ["a.png"]).filter (passes_find ""))) :=
  merge_img_combined_convert_list ["a.png"] "" "d" "" "" true false
    (fun _ => false) String.length (by decide) (by decide)

/-- C2 counterexample: at a concrete run whose output path already exists
and with `overwrite=False`, `merge_img` does fail with the already-exists
error, but the trace shows the staging directory created — and a page
staged — strictly before the existence check fires, refuting "fails …
before any staging directory is created". -/
theorem merge_img_staging_before_exists_cex :
    (merge_img_embed ["a.png"] "" "C:/t" "" "" false false (fun _ => true)
        String.length).result = .errorExists "C:/t/t.pdf"
      ∧ (merge_img_embed ["a.png"] "" "C:/t" "" "" false false (fun _ => true)
          String.length).events
        = [Ev.createStaging, Ev.writePage "tmp/pg0.png", Ev.existsFail]
      ∧ ((merge_img_embed ["a.png"] "" "C:/t" "" "" false false (fun _ => true)
          String.length).events).indexOf Ev.createStaging
        < ((merge_img_embed ["a.png"] "" "C:/t" "" "" false false (fun _ => true)
          String.length).events).indexOf Ev.existsFail := by
  decide

/-- C2 as amended: for every run with at least one candidate, an existing
output path and no `overwrite`, `merge_img` raises the already-exists
error — but only after the staging directory has been created and every
matching page staged, and the conversion is never reached (the staged work
is performed and then thrown away; no cleanup happens on this path). -/
theorem merge_img_staging_before_exists {κ : Type} [LinearOrder κ]
    (files0 : List String) (findTerm rootdir saveTo pdfArg : String)
    (keepTmp : Bool) (exists_ : String → Bool) (key : String → κ)
    (h1 : files0 ≠ [])
    (h2 : exists_ (resolve_pdf_name rootdir saveTo pdfArg) = true) :
    (merge_img_embed files0 findTerm rootdir saveTo pdfArg false keepTmp
        exists_ key).result
      = .errorExists (resolve_pdf_name rootdir saveTo pdfArg)
      ∧ (merge_img_embed files0 findTerm rootdir saveTo pdfArg false keepTmp
          exists_ key).events
        = Ev.createStaging
            :: (stagedFrom 0
                ((sortKeyed key files0).filter (passes_find findTerm))).map
                  Ev.writePage
            ++ [Ev.existsFail]
      ∧ (merge_img_embed files0 findTerm rootdir saveTo pdfArg false keepTmp
          exists_ key).convertInput = none := by
  have hne := sortKeyed_ne_nil key files0 h1
  have hloop : merge_img_loop findTerm (sortKeyed key files0)
      = (sortKeyed key files0
          ++ stagedFrom 0 ((sortKeyed key files0).filter (passes_find findTerm)),
         0 + ((sortKeyed key files0).filter (passes_find findTerm)).length) :=
    merge_img_loop_foldl findTerm (sortKeyed key files0) (sortKeyed key files0) 0
  simp [merge_img_embed, hne, h2, hloop, List.drop_left]

/-- Witness for the amended C2 on a concrete two-file run. -/
theorem merge_img_staging_before_exists_witness :
    (merge_img_embed ["b.jpg", "a.png"] "" "r" "" "out.pdf" false true
        (fun _ => true) String.length).result
      = .errorExists (resolve_pdf_name "r" "" "out.pdf")
      ∧ (merge_img_embed ["b.jpg", "a.png"] "" "r" "" "out.pdf" false true
          (fun _ => true) String.length).events
        = Ev.createStaging
            :: (stagedFrom 0
                ((sortKeyed String.length ["b.jpg", "a.png"]).filter
                  (passes_find ""))).map Ev.writePage
            ++ [Ev.existsFail]
      ∧ (merge_img_embed ["b.jpg", "a.png"] "" "r" "" "out.pdf" false true
          (fun _ => true) String.length).convertInput = none :=
  merge_img_staging_before_exists ["b.jpg", "a.png"] "" "r" "" "out.pdf" true
    (fun _ => true) String.length (by decide) (by decide)

/-- C1: evaluation of `merge_img` at a concrete two-candidate run showing
the divergence — the sequence handed to `img2pdf.convert` is the two
original source paths followed by the two staged pages, so the produced
document has `2·n` pages (one per list entry), not one page per surviving
candidate: the claimed post-condition fails on `merge_img` (while
`merge_img2` keeps the staged pages in a separate list). -/
theorem merge_img_convert_list_doubles :
    (merge_img_embed ["b.png", "a.png"] "" "C:/t" "" "" true false
        (fun _ => false) String.length).convertInput
      = some ["b.png", "a.png", "tmp/pg0.png", "tmp/pg1.png"]
      ∧ ((merge_img_embed ["b.png", "a.png"] "" "C:/t" "" "" true false
          (fun _ => false) String.length).convertInput.getD []).length
        = 2 * (sortKeyed String.length ["b.png", "a.png"]).length := by
  decide

/-- C4: `merge_pdf`'s filter drops every file name matching an exclude
term no matter what the include terms say (exclude strictly takes
precedence over include), and on the candidates
`["draft1.jpg", "final.jpg"]` with `exclude=["draft"]` only
`"final.jpg"` survives. -/
theorem merge_pdf_exclude_precedence :
    (∀ (f : String) (find exclude : List String),
        list_member_in_str f exclude = true → keep_pdf f find exclude = false)
      ∧ ["draft1.jpg", "final.jpg"].filter
          (fun f => keep_pdf f [] ["draft"]) = ["final.jpg"] := by
  constructor
  · intro f find exclude hm
    have hne : exclude ≠ [] := by
      intro h
      subst h
      simp [list_member_in_str] at hm
    have hempty : exclude.isEmpty = false := by
      cases exclude with
      | nil => exact absurd rfl hne
      | cons x xs => rfl
    simp [keep_pdf, hempty, foldl_overwrite _ _ _ hne, hm]
  · decide

/-- Witness for C4: a file matching both an include and an exclude term is
dropped. -/
theorem merge_pdf_exclude_precedence_witness :
    keep_pdf "draft1.jpg" ["draft1"] ["draft"] = false :=
  merge_pdf_exclude_precedence.1 "draft1.jpg" ["draft1"] ["draft"] (by decide)

/-- C5 counterexample: a concrete `merge_pdf` run whose discovery yields
zero candidates does not return a "no candidates" sentinel — it resolves
an output name and writes a (zero-page) merged document there, refuting
"for every run … returns the sentinel … and produces no output
document". -/
theorem merge_pdf_zero_candidates_writes_cex :
    merge_pdf_embed ([] : List PdfEntry) [] [] String.length "C:/temp" ""
      = { outFile := "C:/temp/temp.pdf", pages := [],
          events := [Ev.writePdf] } := by
  decide

/-- Concrete empty filesystem for the C5 witness. -/
def fsNoImages : FS :=
  { root := "r", rootFiles := [], groups := [], contents := fun _ => ⟨1, 1⟩ }

/-- C5 as amended: `merge_img` and `merge_img2` return the
`(None, None, None)` sentinel on zero candidates, raising nothing, doing
no staging work and producing no output document; `merge_pdf`, by
contrast, still resolves an output name and writes an empty merged
document there. -/
theorem zero_candidates_sentinel :
    (∀ (findTerm rootdir saveTo pdfArg : String) (ov kt : Bool)
        (ex : String → Bool) (key : String → Nat),
        merge_img_embed [] findTerm rootdir saveTo pdfArg ov kt ex key
          = { result := .noImages, events := [], convertInput := none })
      ∧ (∀ (fs : FS) (find exclude : List String) (fk : FileEntry → Nat)
          (dk : String → Nat) (recurse : Bool) (saveTo pdfArg : String)
          (ov kt : Bool) (ex : String → Bool),
          merge_img2_files fs find exclude fk dk recurse = [] →
          merge_img2_embed fs find exclude fk dk recurse saveTo pdfArg ov kt ex
            = { result := .noImages, events := [], convertInput := none })
      ∧ (∀ (find exclude : List String) (key : String → Nat)
          (rootdir outArg : String),
          (merge_pdf_embed [] find exclude key rootdir outArg).pages = []
            ∧ (merge_pdf_embed [] find exclude key rootdir outArg).events
              = [Ev.writePdf]) := by
  refine ⟨fun _ _ _ _ _ _ _ _ => rfl, ?_, fun _ _ _ _ _ => ⟨rfl, rfl⟩⟩
  intro fs find exclude fk dk recurse saveTo pdfArg ov kt ex h
  simp [merge_img2_embed, h]

/-- Witness for the amended C5 at concrete empty discoveries. -/
theorem zero_candidates_sentinel_witness :
    merge_img_embed [] "" "r" "" "" false false (fun _ => false) String.length
        = { result := .noImages, events := [], convertInput := none }
      ∧ merge_img2_embed fsNoImages [] [] (fun e => e.name.length)
          String.length true "" "" false false (fun _ => false)
        = { result := .noImages, events := [], convertInput := none }
      ∧ (merge_pdf_embed [] [] [] String.length "C:/r" "").pages = []
      ∧ (merge_pdf_embed [] [] [] String.length "C:/r" "").events
        = [Ev.writePdf] :=
  ⟨zero_candidates_sentinel.1 "" "r" "" "" false false (fun _ => false)
      String.length,
   zero_candidates_sentinel.2.1 fsNoImages [] [] (fun e => e.name.length)
      String.length true "" "" false false (fun _ => false) (by decide),
   (zero_candidates_sentinel.2.2 [] [] String.length "C:/r" "").1,
   (zero_candidates_sentinel.2.2 [] [] String.length "C:/r" "").2⟩

end Topdf
